import Mathlib

/-!
Shallow embedding of the browser-extension test automation core:
the extension-id Discovery Engine (`ExtensionIdExtractor`), the
Lifecycle Manager (`BrowserManager`) and the login State-Transition
Detector (`ExtensionSidePanelPage.waitForLoginSuccess`), together with
proofs of the specified properties.

JavaScript values relevant to the embedded code are modelled by `JSVal`
(`null`, `undefined`, or a string); JS truthiness of such a value is
`JSVal.truthy`.  Fallible JS computations are modelled with `Except`,
where `Except.error` is a thrown exception.
-/

/-- A JavaScript value as it flows through the extension-id extraction
code: `null`, `undefined`, or a string. -/
inductive JSVal : Type
  | null : JSVal
  | undefined : JSVal
  | str : String → JSVal
deriving DecidableEq, Repr

namespace JSVal

/-- JS truthiness restricted to `JSVal`: `null`, `undefined` and the
empty string are falsy; every other string is truthy. -/
def truthy : JSVal → Bool
  | .str s => s ≠ ""
  | _ => false

@[simp] theorem truthy_null : truthy .null = false := rfl

@[simp] theorem truthy_undefined : truthy .undefined = false := rfl

@[simp] theorem truthy_str (s : String) : truthy (.str s) = (s ≠ "" : Bool) := rfl

end JSVal

/-- JS `String.prototype.split` with a single-character separator, on the
character-list level: splits at every occurrence of `sep`, keeping empty
segments, and `[] ↦ [[]]` (JS: `"".split(c)` is `[""]`). -/
def jsSplitAux (sep : Char) : List Char → List (List Char)
  | [] => [[]]
  | c :: cs =>
    match jsSplitAux sep cs with
    | [] => [[c]]
    | r :: rs => if c = sep then [] :: r :: rs else (c :: r) :: rs

/-- JS `url.split(sep)` for a one-character separator. -/
def jsSplit (s : String) (sep : Char) : List String :=
  (jsSplitAux sep s.data).map String.mk

/-- JS `String.prototype.startsWith` on character lists. -/
def startsWithList : List Char → List Char → Bool
  | _, [] => true
  | [], _ :: _ => false
  | c :: cs, p :: ps => c = p && startsWithList cs ps

/-- JS `s.startsWith(p)`. -/
def jsStartsWith (s p : String) : Bool :=
  startsWithList s.data p.data

namespace ExtensionIdExtractor

/-- Embedding of `ExtensionIdExtractor.extractIdFromUrl(url)`:
`if (url && url.startsWith('chrome-extension://')) return url.split('/')[2];
return null;`.  A non-string argument (`null`/`undefined`) is falsy, so the
guard fails and `null` is returned; `url.split('/')[2]` is `undefined`
when the split has fewer than three segments (unreachable under the
guard, since the scheme prefix itself contains two slashes). -/
def extractIdFromUrl : JSVal → JSVal
  | JSVal.str u =>
      if JSVal.truthy (JSVal.str u) && jsStartsWith u "chrome-extension://" then
        match (jsSplit u '/').get? 2 with
        | some s => JSVal.str s
        | none => JSVal.undefined
      else JSVal.null
  | _ => JSVal.null

end ExtensionIdExtractor

/-! ### Lemmas about the JS split model -/

theorem jsSplitAux_ne_nil (sep : Char) (l : List Char) : jsSplitAux sep l ≠ [] := by
  induction l with
  | nil => simp [jsSplitAux]
  | cons c cs ih =>
    simp only [jsSplitAux]
    cases h : jsSplitAux sep cs with
    | nil => simp
    | cons r rs =>
      by_cases hc : c = sep <;> simp [hc]

theorem jsSplitAux_cons_eq (sep c : Char) (cs : List Char) :
    jsSplitAux sep (c :: cs) =
      match jsSplitAux sep cs with
      | [] => [[c]]
      | r :: rs => if c = sep then [] :: r :: rs else (c :: r) :: rs := rfl

/-- Splitting a list that opens with a separator-free block followed by a
separator peels off that block as the first segment. -/
theorem jsSplitAux_append_sep (sep : Char) (l r : List Char)
    (hl : ∀ c ∈ l, c ≠ sep) :
    jsSplitAux sep (l ++ sep :: r) = l :: jsSplitAux sep r := by
  induction l with
  | nil =>
    rw [List.nil_append, jsSplitAux_cons_eq]
    cases h : jsSplitAux sep r with
    | nil => exact absurd h (jsSplitAux_ne_nil sep r)
    | cons a as => simp
  | cons c cs ih =>
    have hc : c ≠ sep := hl c (List.mem_cons_self c cs)
    have hcs : ∀ x ∈ cs, x ≠ sep := fun x hx => hl x (List.mem_cons_of_mem c hx)
    rw [List.cons_append, jsSplitAux_cons_eq, ih hcs]
    simp [hc]

/-- A separator-free list splits into a single segment. -/
theorem jsSplitAux_no_sep (sep : Char) (l : List Char)
    (hl : ∀ c ∈ l, c ≠ sep) :
    jsSplitAux sep l = [l] := by
  induction l with
  | nil => rfl
  | cons c cs ih =>
    have hc : c ≠ sep := hl c (List.mem_cons_self c cs)
    have hcs : ∀ x ∈ cs, x ≠ sep := fun x hx => hl x (List.mem_cons_of_mem c hx)
    rw [jsSplitAux_cons_eq, ih hcs]
    simp [hc]

theorem startsWithList_nil (l : List Char) : startsWithList l [] = true := by
  cases l <;> rfl

theorem startsWithList_append (p r : List Char) :
    startsWithList (p ++ r) p = true := by
  induction p with
  | nil => exact startsWithList_nil _
  | cons c cs ih => simp [startsWithList, ih]

/-- Fact: `jsStartsWith` holds of any string extending the prefix. -/
theorem jsStartsWith_append (p r : String) :
    jsStartsWith (p ++ r) p = true := by
  unfold jsStartsWith
  rw [String.data_append]
  exact startsWithList_append p.data r.data

theorem string_mk_data (s : String) : String.mk s.data = s := by
  cases s; rfl

/-! ### Correctness of `extractIdFromUrl` -/

theorem data_scheme_url (id path : String) :
    ("chrome-extension://" ++ id ++ "/" ++ path).data =
      "chrome-extension:".data ++ '/' :: '/' :: (id.data ++ '/' :: path.data) := by
  simp only [String.data_append]
  simp

theorem jsSplit_scheme_url (id path : String) (hid : ∀ c ∈ id.data, c ≠ '/') :
    (jsSplit ("chrome-extension://" ++ id ++ "/" ++ path) '/').get? 2 = some id := by
  unfold jsSplit
  rw [data_scheme_url]
  have hpre : ∀ c ∈ "chrome-extension:".data, c ≠ '/' := by decide
  rw [jsSplitAux_append_sep '/' _ _ hpre]
  rw [show ('/' :: (id.data ++ '/' :: path.data)) =
        ([] : List Char) ++ '/' :: (id.data ++ '/' :: path.data) from rfl]
  rw [jsSplitAux_append_sep '/' [] _ (by simp)]
  rw [jsSplitAux_append_sep '/' id.data _ hid]
  simp [string_mk_data]

theorem scheme_url_startsWith (id path : String) :
    jsStartsWith ("chrome-extension://" ++ id ++ "/" ++ path) "chrome-extension://" = true := by
  unfold jsStartsWith
  rw [data_scheme_url]
  have h : "chrome-extension://".data = "chrome-extension:".data ++ ['/', '/'] := by decide
  rw [h, show "chrome-extension:".data ++ '/' :: '/' :: (id.data ++ '/' :: path.data) =
        ("chrome-extension:".data ++ ['/', '/']) ++ (id.data ++ '/' :: path.data) by simp]
  exact startsWithList_append _ _

theorem scheme_url_ne_empty (id path : String) :
    ("chrome-extension://" ++ id ++ "/" ++ path) ≠ "" := by
  intro h
  have : ("chrome-extension://" ++ id ++ "/" ++ path).data = "".data := by rw [h]
  rw [data_scheme_url] at this
  simp at this

/-- C1: a URL of the form `chrome-extension://{id}/{path}` (with `{id}` a
slash-free segment) parses to `{id}`; any URL not starting with the scheme
prefix — including `null` and `undefined` inputs — yields `null`.  The
embedded `extractIdFromUrl` is a pure function, so it has no side effects. -/
theorem extractIdFromUrl_correct :
    (∀ id path : String, (∀ c ∈ id.data, c ≠ '/') →
      ExtensionIdExtractor.extractIdFromUrl
        (JSVal.str ("chrome-extension://" ++ id ++ "/" ++ path)) = JSVal.str id) ∧
    (∀ u : String, jsStartsWith u "chrome-extension://" = false →
      ExtensionIdExtractor.extractIdFromUrl (JSVal.str u) = JSVal.null) ∧
    ExtensionIdExtractor.extractIdFromUrl JSVal.null = JSVal.null ∧
    ExtensionIdExtractor.extractIdFromUrl JSVal.undefined = JSVal.null := by
  refine ⟨?_, ?_, rfl, rfl⟩
  · intro id path hid
    simp only [ExtensionIdExtractor.extractIdFromUrl]
    rw [jsSplit_scheme_url id path hid]
    simp [JSVal.truthy, scheme_url_startsWith, scheme_url_ne_empty]
  · intro u hu
    simp only [ExtensionIdExtractor.extractIdFromUrl]
    simp [hu]

/-- Witness for C1 at concrete inputs. -/
theorem extractIdFromUrl_correct_witness :
    ExtensionIdExtractor.extractIdFromUrl
      (JSVal.str "chrome-extension://abcdefgh/page.html") = JSVal.str "abcdefgh" ∧
    ExtensionIdExtractor.extractIdFromUrl (JSVal.str "https://example.com/a") = JSVal.null := by
  constructor
  · have h := extractIdFromUrl_correct.1 "abcdefgh" "page.html" (by decide)
    have he : "chrome-extension://" ++ "abcdefgh" ++ "/" ++ "page.html" =
        "chrome-extension://abcdefgh/page.html" := by decide
    rwa [he] at h
  · exact extractIdFromUrl_correct.2.1 "https://example.com/a" (by decide)

/-- C10: edge behaviour of `extractIdFromUrl`: `null`, `undefined` and the
empty string map to `null` (the guard rejects falsy input, and the total
function never throws), but the bare scheme prefix maps to the empty
string — a non-null value distinct from `null`, since splitting the bare
scheme prefix at each slash yields three segments, of which segment 2 is
empty. -/
theorem extractIdFromUrl_edge_cases :
    ExtensionIdExtractor.extractIdFromUrl JSVal.null = JSVal.null ∧
    ExtensionIdExtractor.extractIdFromUrl JSVal.undefined = JSVal.null ∧
    ExtensionIdExtractor.extractIdFromUrl (JSVal.str "") = JSVal.null ∧
    ExtensionIdExtractor.extractIdFromUrl (JSVal.str "chrome-extension://") = JSVal.str "" ∧
    JSVal.str "" ≠ JSVal.null := by
  refine ⟨rfl, rfl, by decide, by decide, by decide⟩

/-! ### Synchronous scan across the three context channels -/

/-- Snapshot of a Playwright `BrowserContext` as the scan sees it: the
URLs of its live service workers (`context.serviceWorkers()`), its
background pages (`context.backgroundPages()`) and its open pages
(`context.pages()`), each in enumeration order. -/
structure ContextSnapshot where
  serviceWorkerUrls : List String
  backgroundPageUrls : List String
  pageUrls : List String
deriving DecidableEq, Repr

namespace ExtensionIdExtractor

/-- The shared loop body of `getFromServiceWorkers` / `getFromBackgroundPages`
/ `getFromPages`: `for (const x of xs) { const id = extractIdFromUrl(x.url()); if (id) return id; } return null;`. -/
def firstTruthyId : List String → JSVal
  | [] => JSVal.null
  | u :: rest =>
    let id := extractIdFromUrl (JSVal.str u)
    if id.truthy then id else firstTruthyId rest

/-- Embedding of `ExtensionIdExtractor.getFromServiceWorkers(context)`. -/
def getFromServiceWorkers (ctx : ContextSnapshot) : JSVal :=
  firstTruthyId ctx.serviceWorkerUrls

/-- Embedding of `ExtensionIdExtractor.getFromBackgroundPages(context)` (MV2 fallback). -/
def getFromBackgroundPages (ctx : ContextSnapshot) : JSVal :=
  firstTruthyId ctx.backgroundPageUrls

/-- Embedding of `ExtensionIdExtractor.getFromPages(context)`. -/
def getFromPages (ctx : ContextSnapshot) : JSVal :=
  firstTruthyId ctx.pageUrls

/-- Embedding of `ExtensionIdExtractor.getExtensionId(context)`: try service workers,
then background pages, then open pages, with JS truthiness deciding
whether a channel produced a result. -/
def getExtensionId (ctx : ContextSnapshot) : JSVal :=
  let e1 := getFromServiceWorkers ctx
  if e1.truthy then e1
  else
    let e2 := getFromBackgroundPages ctx
    if e2.truthy then e2
    else getFromPages ctx

end ExtensionIdExtractor

theorem firstTruthyId_of_not_truthy (l : List String)
    (h : (ExtensionIdExtractor.firstTruthyId l).truthy = false) :
    ExtensionIdExtractor.firstTruthyId l = JSVal.null := by
  induction l with
  | nil => rfl
  | cons u rest ih =>
    simp only [ExtensionIdExtractor.firstTruthyId] at h ⊢
    by_cases hu : (ExtensionIdExtractor.extractIdFromUrl (JSVal.str u)).truthy
    · simp [hu] at h
    · simp only [Bool.not_eq_true] at hu
      simp [hu] at h ⊢
      exact ih h

/-- Scanning a concatenation is scanning the pieces in order. -/
theorem firstTruthyId_append (a b : List String) :
    ExtensionIdExtractor.firstTruthyId (a ++ b) =
      if (ExtensionIdExtractor.firstTruthyId a).truthy then
        ExtensionIdExtractor.firstTruthyId a
      else ExtensionIdExtractor.firstTruthyId b := by
  induction a with
  | nil => simp [ExtensionIdExtractor.firstTruthyId, JSVal.truthy]
  | cons u rest ih =>
    simp only [List.cons_append, ExtensionIdExtractor.firstTruthyId]
    by_cases hu : (ExtensionIdExtractor.extractIdFromUrl (JSVal.str u)).truthy
    · simp [hu]
    · simp only [Bool.not_eq_true] at hu
      simp [hu, ih]

/-- C5: `getExtensionId` is the first truthy identifier over the channels
concatenated in priority order (service workers, then background pages,
then open pages); in particular, a truthy service-worker match always
wins, a background-page match wins over a page match, and only with both
higher channels silent does the open-page channel answer. -/
theorem getExtensionId_channel_order (ctx : ContextSnapshot) :
    ExtensionIdExtractor.getExtensionId ctx =
      ExtensionIdExtractor.firstTruthyId
        (ctx.serviceWorkerUrls ++ ctx.backgroundPageUrls ++ ctx.pageUrls) := by
  rw [firstTruthyId_append, firstTruthyId_append]
  simp only [ExtensionIdExtractor.getExtensionId,
    ExtensionIdExtractor.getFromServiceWorkers,
    ExtensionIdExtractor.getFromBackgroundPages, ExtensionIdExtractor.getFromPages]
  by_cases h1 : (ExtensionIdExtractor.firstTruthyId ctx.serviceWorkerUrls).truthy
  · simp [h1]
  · simp only [Bool.not_eq_true] at h1
    by_cases h2 : (ExtensionIdExtractor.firstTruthyId ctx.backgroundPageUrls).truthy
    · simp [h1, h2]
    · simp only [Bool.not_eq_true] at h2
      simp [h1, h2]

/-! ### Promise settlement and the discovery race of `waitForExtensionId` -/

/-- The internal settlement cell of a JS promise: `none` while pending,
`some v` once settled with `v`. -/
structure PromiseCell where
  settled : Option JSVal
deriving DecidableEq, Repr

/-- Promise `resolve(v)` as the host language defines it: settles a pending
promise with `v`; on an already-settled promise it is a no-op — the cell
is returned unchanged and, the function being total, no exception is
raised by the second settlement attempt. -/
def settle (c : PromiseCell) (v : JSVal) : PromiseCell :=
  match c.settled with
  | some _ => c
  | none => ⟨some v⟩

/-- Which competitor of the `waitForExtensionId` race makes a settlement
attempt: the `serviceworker`-event observer, the polling loop, the hard
timeout, or the post-race cleanup `resolveFromEvent(null)`. -/
inductive SettleSource : Type
  | eventObserver : SettleSource
  | pollingObserver : SettleSource
  | hardTimeout : SettleSource
  | cleanup : SettleSource
deriving DecidableEq, Repr

/-- One settlement attempt: who attempts, and with which value (an
extension id string from the observers, `null` from the hard timeout and
the cleanup). -/
structure SettleAttempt where
  source : SettleSource
  value : JSVal
deriving DecidableEq, Repr

/-- Applying a time-ordered sequence of settlement attempts to a promise
cell: each attempt calls `resolve`; only the first attempt on a pending
cell takes effect. -/
def raceSettle (c : PromiseCell) : List SettleAttempt → PromiseCell
  | [] => c
  | a :: rest => raceSettle (settle c a.value) rest

/-- The outcome cell of one `waitForExtensionId` call, given the
time-ordered settlement attempts its three competitors (event observer,
polling observer, hard timeout) make during the call.  The final appended
attempt models the cleanup `resolveFromEvent(null)` that the source runs
after `Promise.race` returns. -/
def runDiscoveryRace (attempts : List SettleAttempt) : PromiseCell :=
  raceSettle ⟨none⟩ (attempts ++ [⟨SettleSource.cleanup, JSVal.null⟩])

theorem settle_pending (v : JSVal) : settle ⟨none⟩ v = ⟨some v⟩ := rfl

theorem settle_of_settled (c : PromiseCell) (v w : JSVal) (h : c.settled = some v) :
    settle c w = c := by
  unfold settle
  rw [h]

/-- Once settled, a cell absorbs every further settlement attempt. -/
theorem raceSettle_of_settled (c : PromiseCell) (v : JSVal) (h : c.settled = some v)
    (l : List SettleAttempt) : raceSettle c l = c := by
  induction l with
  | nil => rfl
  | cons a rest ih =>
    simp only [raceSettle]
    rw [settle_of_settled c v a.value h]
    exact ih

/-- C4: the discovery race resolves exactly once, to the value of the
first settlement attempt, even when both the event observer and the
polling observer attempt to settle; the post-race cleanup resolve is a
no-op on the outcome; any further settlement attempts leave the settled
cell unchanged; and `settle` itself is idempotent (a second settlement of
the same cell is a no-op, and being total it raises no exception). -/
theorem discoveryRace_single_resolution (a : SettleAttempt) (rest : List SettleAttempt) :
    (runDiscoveryRace (a :: rest)).settled = some a.value ∧
    runDiscoveryRace (a :: rest) = raceSettle ⟨none⟩ (a :: rest) ∧
    (∀ more : List SettleAttempt,
      raceSettle (runDiscoveryRace (a :: rest)) more = runDiscoveryRace (a :: rest)) ∧
    (∀ (c : PromiseCell) (v w : JSVal), settle (settle c v) w = settle c v) := by
  have hsettled : ∀ l : List SettleAttempt,
      raceSettle (⟨some a.value⟩ : PromiseCell) l = ⟨some a.value⟩ :=
    fun l => raceSettle_of_settled _ a.value rfl l
  have hrun : runDiscoveryRace (a :: rest) = ⟨some a.value⟩ := by
    unfold runDiscoveryRace
    rw [List.cons_append]
    simp only [raceSettle, settle_pending]
    exact hsettled _
  refine ⟨by rw [hrun], ?_, ?_, ?_⟩
  · rw [hrun]
    simp only [raceSettle, settle_pending]
    exact (hsettled rest).symm
  · intro more
    rw [hrun]
    exact hsettled more
  · intro c v w
    cases h : c.settled with
    | some x => rw [settle_of_settled c x v h, settle_of_settled c x w h]
    | none =>
      cases c with
      | mk s => cases h; rw [settle_pending, settle_of_settled _ v w rfl]

/-- Witness for C4: both observers attempt with a match, the hard timeout
attempts with `null`; the race still resolves once, to the event
value of the event observer. -/
theorem discoveryRace_single_resolution_witness :
    (runDiscoveryRace
      [⟨SettleSource.eventObserver, JSVal.str "abcdefgh"⟩,
       ⟨SettleSource.pollingObserver, JSVal.str "abcdefgh"⟩,
       ⟨SettleSource.hardTimeout, JSVal.null⟩]).settled = some (JSVal.str "abcdefgh") :=
  (discoveryRace_single_resolution
    ⟨SettleSource.eventObserver, JSVal.str "abcdefgh"⟩
    [⟨SettleSource.pollingObserver, JSVal.str "abcdefgh"⟩,
     ⟨SettleSource.hardTimeout, JSVal.null⟩]).1

/-! ### `waitForExtensionIdWithFallback` -/

/-- One observable step of `waitForExtensionIdWithFallback`: a call to
`waitForExtensionId` with a given budget, the trigger-page actions
(`context.newPage()`, `tempPage.goto(triggerUrl)`, the fixed
`waitForTimeout` settle delay, `tempPage.close()`). -/
inductive FallbackAction : Type
  | waitAttempt : Nat → FallbackAction
  | openPage : FallbackAction
  | navTrigger : String → FallbackAction
  | settleDelay : Nat → FallbackAction
  | closePage : FallbackAction
deriving DecidableEq, Repr

/-- The DiscoveryTimeout message thrown when both half-budget attempts
stay unresolved. -/
def discoveryFailureMsg : String :=
  "Failed to extract extension ID. Verify extension path and manifest.json."

namespace ExtensionIdExtractor

/-- Embedding of `ExtensionIdExtractor.waitForExtensionIdWithFallback(context, {timeout, triggerUrl})`,
with the two inner `waitForExtensionId(context, {timeout: timeout / 2})`
calls abstracted by their results `attempt1`/`attempt2` (a string or
`null`) and `tempPage.goto(triggerUrl, ...)` by `gotoResult` (it either
completes or throws a navigation error that, after the `finally` close,
propagates).  The returned trace lists the side-effecting steps in
execution order. -/
def waitForExtensionIdWithFallback (attempt1 attempt2 : JSVal)
    (gotoResult : Except String Unit) (timeout : Nat) (triggerUrl : String) :
    Except String JSVal × List FallbackAction :=
  if attempt1.truthy then (Except.ok attempt1, [FallbackAction.waitAttempt (timeout / 2)])
  else
    match gotoResult with
    | Except.error e =>
        (Except.error e,
         [FallbackAction.waitAttempt (timeout / 2), FallbackAction.openPage,
          FallbackAction.navTrigger triggerUrl, FallbackAction.closePage])
    | Except.ok () =>
        let trace :=
          [FallbackAction.waitAttempt (timeout / 2), FallbackAction.openPage,
           FallbackAction.navTrigger triggerUrl, FallbackAction.settleDelay 2000,
           FallbackAction.waitAttempt (timeout / 2), FallbackAction.closePage]
        if attempt2.truthy then (Except.ok attempt2, trace)
        else (Except.error discoveryFailureMsg, trace)

end ExtensionIdExtractor

/-- C3: the fallback splits the budget in half — the first phase is a single
`waitForExtensionId` call with `timeout / 2` and no other side effects, and a
truthy first result returns immediately; only an unresolved first attempt
opens a page, navigates it to the trigger URL, waits the fixed 2000 ms settle
delay, retries with the remaining `timeout / 2`, and closes the page; a still
unresolved retry fails with the DiscoveryTimeout error; and on every path
whose outcome is that error the trigger-navigation phase ran exactly once. -/
theorem waitForFallback_spec (a1 a2 : JSVal) (g : Except String Unit)
    (timeout : Nat) (url : String) :
    (a1.truthy = true →
      ExtensionIdExtractor.waitForExtensionIdWithFallback a1 a2 g timeout url =
        (Except.ok a1, [FallbackAction.waitAttempt (timeout / 2)])) ∧
    (a1.truthy = false → g = Except.ok () → a2.truthy = true →
      ExtensionIdExtractor.waitForExtensionIdWithFallback a1 a2 g timeout url =
        (Except.ok a2,
         [FallbackAction.waitAttempt (timeout / 2), FallbackAction.openPage,
          FallbackAction.navTrigger url, FallbackAction.settleDelay 2000,
          FallbackAction.waitAttempt (timeout / 2), FallbackAction.closePage])) ∧
    (a1.truthy = false → g = Except.ok () → a2.truthy = false →
      ExtensionIdExtractor.waitForExtensionIdWithFallback a1 a2 g timeout url =
        (Except.error discoveryFailureMsg,
         [FallbackAction.waitAttempt (timeout / 2), FallbackAction.openPage,
          FallbackAction.navTrigger url, FallbackAction.settleDelay 2000,
          FallbackAction.waitAttempt (timeout / 2), FallbackAction.closePage])) ∧
    ((ExtensionIdExtractor.waitForExtensionIdWithFallback a1 a2 g timeout url).1 =
        Except.error discoveryFailureMsg →
      (ExtensionIdExtractor.waitForExtensionIdWithFallback a1 a2 g timeout url).2.count
        FallbackAction.openPage = 1) := by
  unfold ExtensionIdExtractor.waitForExtensionIdWithFallback
  refine ⟨fun h1 => by simp [h1], fun h1 hg h2 => by simp [h1, hg, h2],
    fun h1 hg h2 => by simp [h1, hg, h2], ?_⟩
  intro herr
  by_cases h1 : a1.truthy
  · simp [h1] at herr
  · simp only [Bool.not_eq_true] at h1
    cases g with
    | error e => simp [h1, List.count_cons]
    | ok u =>
      cases u
      by_cases h2 : a2.truthy
      · simp [h1, h2] at herr
      · simp only [Bool.not_eq_true] at h2
        simp [h1, h2, List.count_cons]

/-- Witness for C3: both attempts unresolved, trigger navigation
succeeds — one trigger phase, then the DiscoveryTimeout failure. -/
theorem waitForFallback_spec_witness :
    ExtensionIdExtractor.waitForExtensionIdWithFallback JSVal.null JSVal.null
        (Except.ok ()) 30000 "https://www.google.com" =
      (Except.error discoveryFailureMsg,
       [FallbackAction.waitAttempt 15000, FallbackAction.openPage,
        FallbackAction.navTrigger "https://www.google.com", FallbackAction.settleDelay 2000,
        FallbackAction.waitAttempt 15000, FallbackAction.closePage]) :=
  (waitForFallback_spec JSVal.null JSVal.null (Except.ok ()) 30000
    "https://www.google.com").2.2.1 rfl rfl rfl

/-! ### The login State-Transition Detector -/

/-- Outcome of one bounded Playwright wait used as a detector probe: it
completes within its timeout, it times out (Playwright throws a
TimeoutError), or it fails with some other error (e.g. the element
detached mid-check) — both of the latter surface as a thrown exception at
the call site. -/
inductive ProbeOutcome : Type
  | completes : ProbeOutcome
  | timesOut : ProbeOutcome
  | errors : ProbeOutcome
deriving DecidableEq, Repr

/-- One signal check of the detector waterfall, recorded together with
the timeout (in ms) the source gives it; the field-emptiness check has no
wait of its own. -/
inductive Signal : Type
  | urlChange : Nat → Signal
  | successMarker : Nat → Signal
  | formHidden : Nat → Signal
  | fieldEmpty : Signal
deriving DecidableEq, Repr

/-- The page state a `waitForLoginSuccess` call observes, one field per
probe the source performs: the `page.waitForURL` wait, the
success-indicator visibility wait, the login-form hidden wait, and the
two `locator.inputValue()` reads (which either return the field text or
throw). -/
structure DetectorEnv where
  urlOutcome : ProbeOutcome
  successOutcome : ProbeOutcome
  formHiddenOutcome : ProbeOutcome
  usernameRead : Except String String
  passwordRead : Except String String
deriving Repr

namespace BasePage

/-- Embedding of `BasePage.waitForUrlContains(urlPart, timeout)`: wraps the wait in
`try { ...; return true } catch { return false }`, so a timeout or an
error both come back as `false`. -/
def waitForUrlContains (o : ProbeOutcome) : Bool :=
  match o with
  | ProbeOutcome.completes => true
  | ProbeOutcome.timesOut => false
  | ProbeOutcome.errors => false

/-- Embedding of `BasePage.getInputValue(locator)`: `return await locator.inputValue();`
— no handling of its own, so the result of the read (value or thrown error)
passes straight through. -/
def getInputValue (read : Except String String) : Except String String :=
  read

end BasePage

namespace ExtensionSidePanelPage

/-- Embedding of `ExtensionSidePanelPage.waitForLoginSuccess()`: the four-signal
waterfall.  Signal 1 is `waitForUrlContains(..., 3000)`; signals 2 and 3
are `waitForVisible(successIndicator, 2000)` / `waitForHidden(loginForm, 2000)`
each wrapped in `try { ... return true } catch { }`; signal 4 reads both
credential fields via `getInputValue` with no try/catch and returns
whether both are empty.  Besides the result, the trace of signal checks
that were started is returned, in execution order. -/
def waitForLoginSuccess (env : DetectorEnv) : Except String Bool × List Signal :=
  if BasePage.waitForUrlContains env.urlOutcome then
    (Except.ok true, [Signal.urlChange 3000])
  else
    match env.successOutcome with
    | ProbeOutcome.completes =>
        (Except.ok true, [Signal.urlChange 3000, Signal.successMarker 2000])
    | _ =>
      match env.formHiddenOutcome with
      | ProbeOutcome.completes =>
          (Except.ok true,
           [Signal.urlChange 3000, Signal.successMarker 2000, Signal.formHidden 2000])
      | _ =>
        let fullTrace :=
          [Signal.urlChange 3000, Signal.successMarker 2000, Signal.formHidden 2000,
           Signal.fieldEmpty]
        match BasePage.getInputValue env.usernameRead with
        | Except.error e => (Except.error e, fullTrace)
        | Except.ok u =>
          match BasePage.getInputValue env.passwordRead with
          | Except.error e => (Except.error e, fullTrace)
          | Except.ok p =>
            if u = "" ∧ p = "" then (Except.ok true, fullTrace)
            else (Except.ok false, fullTrace)

end ExtensionSidePanelPage

/-- C6: the waterfall checks its signals in the fixed order navigation,
success marker, form disappearance, field emptiness — every trace is one
of the four in-order stages, each signal carrying its own timeout — and
it short-circuits: if the navigation signal fires, the result is `true`
with only that signal evaluated. -/
theorem detector_waterfall_order (env : DetectorEnv) :
    ((ExtensionSidePanelPage.waitForLoginSuccess env).2 = [Signal.urlChange 3000] ∨
     (ExtensionSidePanelPage.waitForLoginSuccess env).2 =
       [Signal.urlChange 3000, Signal.successMarker 2000] ∨
     (ExtensionSidePanelPage.waitForLoginSuccess env).2 =
       [Signal.urlChange 3000, Signal.successMarker 2000, Signal.formHidden 2000] ∨
     (ExtensionSidePanelPage.waitForLoginSuccess env).2 =
       [Signal.urlChange 3000, Signal.successMarker 2000, Signal.formHidden 2000,
        Signal.fieldEmpty]) ∧
    (env.urlOutcome = ProbeOutcome.completes →
      ExtensionSidePanelPage.waitForLoginSuccess env =
        (Except.ok true, [Signal.urlChange 3000])) := by
  obtain ⟨o1, o2, o3, ru, rp⟩ := env
  constructor
  · cases o1 <;> cases o2 <;> cases o3 <;> cases ru <;> cases rp <;>
      simp [ExtensionSidePanelPage.waitForLoginSuccess, BasePage.waitForUrlContains,
        BasePage.getInputValue] <;>
      split <;> simp
  · intro h
    cases h
    rfl

/-- Witness for C6 at a concrete page state whose navigation signal fires. -/
theorem detector_waterfall_order_witness :
    ExtensionSidePanelPage.waitForLoginSuccess
        ⟨ProbeOutcome.completes, ProbeOutcome.timesOut, ProbeOutcome.timesOut,
         Except.ok "u", Except.ok "p"⟩ =
      (Except.ok true, [Signal.urlChange 3000]) :=
  (detector_waterfall_order
    ⟨ProbeOutcome.completes, ProbeOutcome.timesOut, ProbeOutcome.timesOut,
     Except.ok "u", Except.ok "p"⟩).2 rfl

/-- Counterexample to C2: with every wait silent and the username
`inputValue()` read throwing (e.g. the element detached), the detector
propagates the error instead of returning a boolean — the fourth signal
check has no local catch. -/
theorem detector_raises_on_field_read_error :
    (ExtensionSidePanelPage.waitForLoginSuccess
      ⟨ProbeOutcome.timesOut, ProbeOutcome.timesOut, ProbeOutcome.timesOut,
       Except.error "element detached", Except.ok ""⟩).1 =
      Except.error "element detached" := rfl

/-- C2 (amended): when the first three signals fail or time out and both
field reads succeed without both fields being empty, the detector returns
`false`, not an exception; an error inside any of the first three signal
checks is swallowed locally — it is indistinguishable from a timeout, and
the waterfall proceeds to the next signal; but an error thrown by the
field reads of the fourth check propagates out of `waitForLoginSuccess`. -/
theorem detector_error_handling (env : DetectorEnv) :
    (∀ u p : String,
      env.urlOutcome ≠ ProbeOutcome.completes →
      env.successOutcome ≠ ProbeOutcome.completes →
      env.formHiddenOutcome ≠ ProbeOutcome.completes →
      env.usernameRead = Except.ok u → env.passwordRead = Except.ok p →
      ¬(u = "" ∧ p = "") →
      (ExtensionSidePanelPage.waitForLoginSuccess env).1 = Except.ok false) ∧
    ExtensionSidePanelPage.waitForLoginSuccess
        {env with urlOutcome := ProbeOutcome.errors} =
      ExtensionSidePanelPage.waitForLoginSuccess
        {env with urlOutcome := ProbeOutcome.timesOut} ∧
    ExtensionSidePanelPage.waitForLoginSuccess
        {env with successOutcome := ProbeOutcome.errors} =
      ExtensionSidePanelPage.waitForLoginSuccess
        {env with successOutcome := ProbeOutcome.timesOut} ∧
    ExtensionSidePanelPage.waitForLoginSuccess
        {env with formHiddenOutcome := ProbeOutcome.errors} =
      ExtensionSidePanelPage.waitForLoginSuccess
        {env with formHiddenOutcome := ProbeOutcome.timesOut} ∧
    (∀ e : String,
      env.urlOutcome ≠ ProbeOutcome.completes →
      env.successOutcome ≠ ProbeOutcome.completes →
      env.formHiddenOutcome ≠ ProbeOutcome.completes →
      env.usernameRead = Except.error e →
      (ExtensionSidePanelPage.waitForLoginSuccess env).1 = Except.error e) := by
  obtain ⟨o1, o2, o3, ru, rp⟩ := env
  refine ⟨?_, rfl, rfl, rfl, ?_⟩
  · intro u p h1 h2 h3 hu hp hne
    cases o1 <;> cases o2 <;> cases o3 <;>
      simp_all [ExtensionSidePanelPage.waitForLoginSuccess,
        BasePage.waitForUrlContains, BasePage.getInputValue]
    all_goals rw [if_neg (fun hand => hne hand.1 hand.2)]
  · intro e h1 h2 h3 hu
    cases o1 <;> cases o2 <;> cases o3 <;>
      simp_all [ExtensionSidePanelPage.waitForLoginSuccess,
        BasePage.waitForUrlContains, BasePage.getInputValue]

/-- Witness for the amended C2 at concrete page states: a failed-login
state (no signal fires, fields still filled) yields `false`; a state whose
username read throws propagates that error. -/
theorem detector_error_handling_witness :
    (ExtensionSidePanelPage.waitForLoginSuccess
      ⟨ProbeOutcome.timesOut, ProbeOutcome.errors, ProbeOutcome.timesOut,
       Except.ok "user", Except.ok "pw"⟩).1 = Except.ok false ∧
    (ExtensionSidePanelPage.waitForLoginSuccess
      ⟨ProbeOutcome.errors, ProbeOutcome.timesOut, ProbeOutcome.errors,
       Except.error "detached", Except.ok "x"⟩).1 = Except.error "detached" :=
  ⟨(detector_error_handling
      ⟨ProbeOutcome.timesOut, ProbeOutcome.errors, ProbeOutcome.timesOut,
       Except.ok "user", Except.ok "pw"⟩).1 "user" "pw"
      (by decide) (by decide) (by decide) rfl rfl (by decide),
   (detector_error_handling
      ⟨ProbeOutcome.errors, ProbeOutcome.timesOut, ProbeOutcome.errors,
       Except.error "detached", Except.ok "x"⟩).2.2.2.2 "detached"
      (by decide) (by decide) (by decide) rfl⟩

/-! ### The Lifecycle Manager (`BrowserManager`) -/

namespace TestConfig

/-- Value of `testConfig.sidePanelFile`. -/
def sidePanelFile : String := "sidepanel.html"

end TestConfig

/-- The mutable fields of a `BrowserManager` instance: `this.context`
(the persistent context, opaque, `null` when absent), `this.extensionId`
(`null` before discovery) and `this.isInitialized`. -/
structure BrowserManager where
  context : Option Nat
  extensionId : Option String
  isInitialized : Bool
deriving DecidableEq, Repr

/-- What one `launch()` call consumes from its environment: the context
`chromium.launchPersistentContext` creates, and the outcome of
`ExtensionIdExtractor.waitForExtensionIdWithFallback` on it (an id
string, or the thrown discovery error). -/
structure LaunchEnv where
  newContext : Nat
  discovery : Except String String

/-- The externally visible side effects of a `launch()` call. -/
inductive ManagerAction : Type
  | createContext : ManagerAction
  | runDiscovery : ManagerAction
deriving DecidableEq, Repr

namespace BrowserManager

/-- Field initialisation done by the constructor: `this.context = null;
this.extensionId = null; this.isInitialized = false;`. -/
def init : BrowserManager := ⟨none, none, false⟩

/-- Embedding of `BrowserManager.launch(launchOptions)`: returns, in order, the value
`launch` produces (`this` on success, the thrown error otherwise), the
state of `this` afterwards (on a discovery failure the context stays
assigned while `isInitialized` remains `false`), and the side-effect
trace.  An already-initialized manager returns `this` at once with no
side effects. -/
def launch (m : BrowserManager) (env : LaunchEnv) :
    Except String BrowserManager × BrowserManager × List ManagerAction :=
  if m.isInitialized then (Except.ok m, m, [])
  else
    match env.discovery with
    | Except.error e =>
        (Except.error e, ⟨some env.newContext, m.extensionId, false⟩,
         [ManagerAction.createContext, ManagerAction.runDiscovery])
    | Except.ok id =>
        let m2 : BrowserManager := ⟨some env.newContext, some id, true⟩
        (Except.ok m2, m2,
         [ManagerAction.createContext, ManagerAction.runDiscovery])

/-- The Uninitialized error message of `BrowserManager._ensureInitialized`. -/
def uninitializedMsg : String := "BrowserManager not initialized. Call launch() first."

/-- Embedding of `BrowserManager._ensureInitialized()`: throws unless `launch()` has
completed successfully. -/
def ensureInitialized (m : BrowserManager) : Except String Unit :=
  if m.isInitialized then Except.ok () else Except.error uninitializedMsg

/-- Embedding of `BrowserManager.getContext()`. -/
def getContext (m : BrowserManager) : Except String (Option Nat) := do
  ensureInitialized m
  pure m.context

/-- Embedding of `BrowserManager.getExtensionId()`. -/
def getExtensionId (m : BrowserManager) : Except String (Option String) := do
  ensureInitialized m
  pure m.extensionId

/-- JS template-literal interpolation of the (possibly `null`)
`this.extensionId` field: `${null}` renders as the text `null`.  After a
successful launch the field always holds a string, so the `null` branch
is unreachable in practice. -/
def renderOptId : Option String → String
  | some s => s
  | none => "null"

/-- Embedding of `BrowserManager.getSidePanelUrl()`: builds
`chrome-extension://${this.getExtensionId()}/${testConfig.sidePanelFile}`;
the inner accessor throws first when uninitialized. -/
def getSidePanelUrl (m : BrowserManager) : Except String String := do
  let id ← getExtensionId m
  pure ("chrome-extension://" ++ renderOptId id ++ "/" ++ TestConfig.sidePanelFile)

/-- Embedding of `BrowserManager.getExtensionPageUrl(pagePath)`: builds
`chrome-extension://${this.getExtensionId()}/${pagePath}`. -/
def getExtensionPageUrl (m : BrowserManager) (pagePath : String) : Except String String := do
  let id ← getExtensionId m
  pure ("chrome-extension://" ++ renderOptId id ++ "/" ++ pagePath)

/-- Embedding of `BrowserManager.newPage()`: asserts initialization, then creates a
page in the context (the page itself is opaque to this model). -/
def newPage (m : BrowserManager) : Except String Unit := do
  ensureInitialized m
  pure ()

/-- Embedding of `BrowserManager.getPages()`: asserts initialization, then returns
`this.context.pages()` (opaque to this model). -/
def getPages (m : BrowserManager) : Except String Unit := do
  ensureInitialized m
  pure ()

end BrowserManager

/-- C7: `launch()` is idempotent — on an already-initialized manager it
returns the same instance with no context creation; and after any
successful launch, a second `launch()` call performs no side effects,
returns the very same manager, and the extension id it exposes is
unchanged. -/
theorem launch_idempotent (m : BrowserManager) (env env2 : LaunchEnv) :
    (m.isInitialized = true →
      BrowserManager.launch m env = (Except.ok m, m, [])) ∧
    (∀ (m' s : BrowserManager) (tr : List ManagerAction),
      BrowserManager.launch m env = (Except.ok m', s, tr) →
      BrowserManager.launch m' env2 = (Except.ok m', m', []) ∧
      m'.isInitialized = true) := by
  constructor
  · intro h
    simp [BrowserManager.launch, h]
  · intro m' s tr hlaunch
    by_cases h : m.isInitialized
    · simp only [BrowserManager.launch, h, if_true] at hlaunch
      obtain ⟨h1, _, _⟩ := Prod.mk.injEq .. ▸ hlaunch
      cases hlaunch
      exact ⟨by simp [BrowserManager.launch, h], h⟩
    · simp only [Bool.not_eq_true] at h
      simp only [BrowserManager.launch, h] at hlaunch
      cases hd : env.discovery with
      | error e => rw [hd] at hlaunch; cases hlaunch
      | ok id =>
        rw [hd] at hlaunch
        simp only at hlaunch
        obtain ⟨h1, h2, h3⟩ := Prod.mk.injEq .. ▸ hlaunch
        cases h1
        exact ⟨by simp [BrowserManager.launch], rfl⟩

/-- Witness for C7: launching a fresh manager succeeds, and relaunching
the resulting manager is a side-effect-free no-op returning it again. -/
theorem launch_idempotent_witness :
    BrowserManager.launch (⟨some 0, some "abcdefgh", true⟩ : BrowserManager) ⟨1, Except.ok "zz"⟩ =
      (Except.ok (⟨some 0, some "abcdefgh", true⟩ : BrowserManager),
       (⟨some 0, some "abcdefgh", true⟩ : BrowserManager), []) ∧
    (⟨some 0, some "abcdefgh", true⟩ : BrowserManager).isInitialized = true :=
  (launch_idempotent BrowserManager.init ⟨0, Except.ok "abcdefgh"⟩ ⟨1, Except.ok "zz"⟩).2
    ⟨some 0, some "abcdefgh", true⟩ ⟨some 0, some "abcdefgh", true⟩
    [ManagerAction.createContext, ManagerAction.runDiscovery] rfl

/-- C8: every accessor that reads the context, the identifier, or a
derived address — `getContext`, `getExtensionId`, `getSidePanelUrl`,
`getExtensionPageUrl`, `newPage`, `getPages` — throws the Uninitialized
error when the manager is not initialized (i.e. before `launch()` has
completed successfully); in particular no such call answers with an ok
value, so premature access is never reported as a null-like "not found". -/
theorem accessors_reject_uninitialized (m : BrowserManager)
    (h : m.isInitialized = false) :
    BrowserManager.getContext m = Except.error BrowserManager.uninitializedMsg ∧
    BrowserManager.getExtensionId m = Except.error BrowserManager.uninitializedMsg ∧
    BrowserManager.getSidePanelUrl m = Except.error BrowserManager.uninitializedMsg ∧
    (∀ pagePath : String,
      BrowserManager.getExtensionPageUrl m pagePath =
        Except.error BrowserManager.uninitializedMsg) ∧
    BrowserManager.newPage m = Except.error BrowserManager.uninitializedMsg ∧
    BrowserManager.getPages m = Except.error BrowserManager.uninitializedMsg ∧
    (∀ v : Option String, BrowserManager.getExtensionId m ≠ Except.ok v) := by
  have he : BrowserManager.ensureInitialized m =
      Except.error BrowserManager.uninitializedMsg := by
    simp [BrowserManager.ensureInitialized, h]
  refine ⟨?_, ?_, ?_, ?_, ?_, ?_, ?_⟩
  · simp [BrowserManager.getContext, he]
  · simp [BrowserManager.getExtensionId, he]
  · simp [BrowserManager.getSidePanelUrl, BrowserManager.getExtensionId, he]
  · intro pagePath
    simp [BrowserManager.getExtensionPageUrl, BrowserManager.getExtensionId, he]
  · simp [BrowserManager.newPage, he]
  · simp [BrowserManager.getPages, he]
  · intro v
    simp [BrowserManager.getExtensionId, he]

/-- Witness for C8: all six accessors reject a freshly constructed,
never-launched manager. -/
theorem accessors_reject_uninitialized_witness :
    BrowserManager.getContext BrowserManager.init =
      Except.error BrowserManager.uninitializedMsg ∧
    BrowserManager.getExtensionId BrowserManager.init =
      Except.error BrowserManager.uninitializedMsg ∧
    BrowserManager.getSidePanelUrl BrowserManager.init =
      Except.error BrowserManager.uninitializedMsg ∧
    BrowserManager.getExtensionPageUrl BrowserManager.init "options.html" =
      Except.error BrowserManager.uninitializedMsg ∧
    BrowserManager.newPage BrowserManager.init =
      Except.error BrowserManager.uninitializedMsg ∧
    BrowserManager.getPages BrowserManager.init =
      Except.error BrowserManager.uninitializedMsg :=
  let h := accessors_reject_uninitialized BrowserManager.init rfl
  ⟨h.1, h.2.1, h.2.2.1, h.2.2.2.1 "options.html", h.2.2.2.2.1, h.2.2.2.2.2.1⟩

/-- C9: address building and identifier extraction round-trip — for an
initialized manager holding a non-empty, slash-free identifier,
`getExtensionPageUrl` builds `chrome-extension://{id}/{path}`, and
`extractIdFromUrl` applied to that address returns exactly the id. -/
theorem pageUrl_extract_roundTrip (m : BrowserManager) (id pagePath : String)
    (hinit : m.isInitialized = true) (hid : m.extensionId = some id)
    (_hne : id ≠ "") (hslash : ∀ c ∈ id.data, c ≠ '/') :
    BrowserManager.getExtensionPageUrl m pagePath =
      Except.ok ("chrome-extension://" ++ id ++ "/" ++ pagePath) ∧
    ExtensionIdExtractor.extractIdFromUrl
      (JSVal.str ("chrome-extension://" ++ id ++ "/" ++ pagePath)) = JSVal.str id := by
  constructor
  · simp [BrowserManager.getExtensionPageUrl, BrowserManager.getExtensionId,
      BrowserManager.ensureInitialized, hinit, hid, BrowserManager.renderOptId]
  · simp only [ExtensionIdExtractor.extractIdFromUrl]
    rw [jsSplit_scheme_url id pagePath hslash]
    simp [JSVal.truthy, scheme_url_startsWith, scheme_url_ne_empty]

/-- Witness for C9 at a concrete manager and path. -/
theorem pageUrl_extract_roundTrip_witness :
    BrowserManager.getExtensionPageUrl
        (⟨some 0, some "okddmjppgffcnlkbmjanchehkaebokng", true⟩ : BrowserManager)
        "options.html" =
      Except.ok ("chrome-extension://" ++ "okddmjppgffcnlkbmjanchehkaebokng" ++ "/" ++
        "options.html") ∧
    ExtensionIdExtractor.extractIdFromUrl
      (JSVal.str ("chrome-extension://" ++ "okddmjppgffcnlkbmjanchehkaebokng" ++ "/" ++
        "options.html")) = JSVal.str "okddmjppgffcnlkbmjanchehkaebokng" :=
  pageUrl_extract_roundTrip
    (⟨some 0, some "okddmjppgffcnlkbmjanchehkaebokng", true⟩ : BrowserManager)
    "okddmjppgffcnlkbmjanchehkaebokng" "options.html" rfl rfl (by decide) (by decide)
